/-
  Verification of the Tetris game engine (client/src/lib/tetris.ts and
  client/src/hooks/use-tetris.ts) against its natural-language specification.

  The TypeScript source is shallowly embedded: boards are lists of rows of
  optional blocks, positions are pairs of integers, and the React hook's
  sequential state updates are modelled as a pure state-transition function
  on an explicit `TetrisState` record.  Randomness (`generateRandomTetromino`)
  is modelled by passing the freshly generated piece as an input parameter.
-/
import Mathlib

namespace Tetris

/-- `Block`: a stamped cell carries the piece kind (source: `interface Block`). -/
structure Block where
  type : String
deriving DecidableEq, Repr

/-- A board cell: empty (`null`) or a stamped block. -/
abbrev Cell := Option Block

/-- A board row. -/
abbrev Row := List Cell

/-- The game board, row-major, row 0 at the top. -/
abbrev Board := List Row

/-- `interface Tetromino` from the source. -/
structure Tetromino where
  type : String
  shape : List (List Bool)
deriving DecidableEq, Repr

/-- `interface Position`: integer offset of the shape origin on the board. -/
structure Position where
  x : Int
  y : Int
deriving DecidableEq, Repr

/-- `BOARD_WIDTH = 10` from the source. -/
def BOARD_WIDTH : Nat := 10

/-- `BOARD_HEIGHT = 20` from the source. -/
def BOARD_HEIGHT : Nat := 20

/-- The `I` entry of `TETROMINOES`. -/
def tetroI : Tetromino :=
  { type := "I"
    shape := [[false, false, false, false],
              [true, true, true, true],
              [false, false, false, false],
              [false, false, false, false]] }

/-- The `J` entry of `TETROMINOES`. -/
def tetroJ : Tetromino :=
  { type := "J"
    shape := [[true, false, false],
              [true, true, true],
              [false, false, false]] }

/-- The `L` entry of `TETROMINOES`. -/
def tetroL : Tetromino :=
  { type := "L"
    shape := [[false, false, true],
              [true, true, true],
              [false, false, false]] }

/-- The `O` entry of `TETROMINOES`. -/
def tetroO : Tetromino :=
  { type := "O"
    shape := [[true, true],
              [true, true]] }

/-- The `S` entry of `TETROMINOES`. -/
def tetroS : Tetromino :=
  { type := "S"
    shape := [[false, true, true],
              [true, true, false],
              [false, false, false]] }

/-- The `T` entry of `TETROMINOES`. -/
def tetroT : Tetromino :=
  { type := "T"
    shape := [[false, true, false],
              [true, true, true],
              [false, false, false]] }

/-- The `Z` entry of `TETROMINOES`. -/
def tetroZ : Tetromino :=
  { type := "Z"
    shape := [[true, true, false],
              [false, true, true],
              [false, false, false]] }

/-- The seven catalog pieces (`TETROMINOES`), in the source's key order. -/
def TETROMINOES : List Tetromino :=
  [tetroI, tetroJ, tetroL, tetroO, tetroS, tetroT, tetroZ]

/-- `createEmptyBoard()`: a `BOARD_HEIGHT × BOARD_WIDTH` grid of `null`. -/
def createEmptyBoard : Board :=
  List.replicate BOARD_HEIGHT (List.replicate BOARD_WIDTH (none : Cell))

/-- Read the shape cell at row `y`, column `x` (out-of-range reads as `false`,
    mirroring JavaScript's `undefined` being falsy). -/
def shapeCell (shape : List (List Bool)) (y x : Nat) : Bool :=
  (shape.getD y []).getD x false

/-- Read the board cell at row `y`, column `x` (`Nat` indices). -/
def boardCell (board : Board) (y x : Nat) : Cell :=
  (board.getD y []).getD x none

/--
`checkCollision(board, shape, position)`: the source's doubly nested loop with
early `return true` is embedded as `List.any` over the row and column index
ranges.  An occupied shape cell collides when its board coordinate leaves
`[0, BOARD_WIDTH)` horizontally or `[0, BOARD_HEIGHT)` vertically (including
`boardY < 0`), or when it lands on a non-null board cell.
-/
def checkCollision (board : Board) (shape : List (List Bool)) (pos : Position) : Bool :=
  (List.range shape.length).any fun y =>
    (List.range (shape.getD y []).length).any fun x =>
      (shape.getD y []).getD x false &&
        (let boardX : Int := ↑x + pos.x
         let boardY : Int := ↑y + pos.y
         (boardX < 0 || boardX ≥ (BOARD_WIDTH : Int) ||
          boardY < 0 || boardY ≥ (BOARD_HEIGHT : Int)) ||
         (boardY ≥ 0 && (boardCell board boardY.toNat boardX.toNat).isSome))

/-- Write value `v` into board cell `(y, x)` (no-op when out of range),
    the effect of `newBoard[boardY][boardX] = …` on a list-of-lists board. -/
def setBoardCell (board : Board) (y x : Nat) (v : Cell) : Board :=
  board.set y ((board.getD y []).set x v)

/-- Body of the inner `for (x …)` loop of `mergeTetrominoWithBoard`: stamp the
    piece kind when the shape cell `(y, x)` is occupied and its board
    coordinate is in bounds. -/
def mergeCell (tetromino : Tetromino) (pos : Position) (y : Nat)
    (acc : Board) (x : Nat) : Board :=
  if (tetromino.shape.getD y []).getD x false then
    if (↑y + pos.y : Int) ≥ 0 ∧ (↑y + pos.y : Int) < (BOARD_HEIGHT : Int) ∧
       (↑x + pos.x : Int) ≥ 0 ∧ (↑x + pos.x : Int) < (BOARD_WIDTH : Int) then
      setBoardCell acc (↑y + pos.y : Int).toNat (↑x + pos.x : Int).toNat
        (some { type := tetromino.type })
    else acc
  else acc

/-- Body of the outer `for (y …)` loop of `mergeTetrominoWithBoard`. -/
def mergeRow (tetromino : Tetromino) (pos : Position) (acc : Board) (y : Nat) :
    Board :=
  (List.range (tetromino.shape.getD y []).length).foldl
    (mergeCell tetromino pos y) acc

/--
`mergeTetrominoWithBoard(board, tetromino, position)`: iterate over the shape
cells (nested `foldl` over the index ranges, mirroring the nested `for` loops)
and stamp `{ type }` into every occupied cell whose board coordinate is within
bounds; out-of-bounds cells are silently dropped.
-/
def mergeTetrominoWithBoard (board : Board) (tetromino : Tetromino)
    (pos : Position) : Board :=
  (List.range tetromino.shape.length).foldl (mergeRow tetromino pos) board

/-- A row is full when every cell is non-null (`row.every(cell => cell !== null)`). -/
def isFull (row : Row) : Bool :=
  row.all fun c => c.isSome

/-- An empty row of `null`s, as produced by `Array(BOARD_WIDTH).fill(null)`. -/
def emptyRow : Row :=
  List.replicate BOARD_WIDTH (none : Cell)

/--
The `clearLines` scanning loop.  `n` is the number of board indices still to
examine (the loop variable is `y = n - 1`); on finding a full row at index
`y` the rows above are shifted down one (equivalently: row `y` is erased and
an empty row is prepended at the top) and the same index is re-examined
(`y++` in the source).  Re-examination is not structurally decreasing, so the
loop carries fuel; `clearLines` supplies enough fuel for any real board (each
iteration either moves to the next index or removes one of the at most
`BOARD_HEIGHT` full rows).
-/
def clearLoop : Nat → Board → Nat → Board × Nat
  | 0, b, _ => (b, 0)
  | _ + 1, b, 0 => (b, 0)
  | fuel + 1, b, n + 1 =>
    if isFull (b.getD n []) then
      let p := clearLoop fuel (emptyRow :: b.eraseIdx n) (n + 1)
      (p.1, p.2 + 1)
    else
      clearLoop fuel b n

/-- `clearLines(board)`: scan all `BOARD_HEIGHT` rows bottom-to-top. -/
def clearLines (board : Board) : Board × Nat :=
  clearLoop (2 * BOARD_HEIGHT + 1) board BOARD_HEIGHT

/--
`rotateMatrix(matrix)`: 90° clockwise rotation of an `n × n` matrix,
`result[j][n-1-i] = matrix[i][j]`; equivalently the cell of the result at
row `a`, column `b` is `matrix[n-1-b][a]` (cells never assigned stay `false`,
matching the `false`-initialised result array).
-/
def rotateMatrix (matrix : List (List Bool)) : List (List Bool) :=
  let n := matrix.length
  (List.range n).map fun a =>
    (List.range n).map fun b =>
      (matrix.getD (n - 1 - b) []).getD a false

/-! ## The session state machine (`use-tetris.ts`)

The React hook's pieces of `useState` are collected into one record and each
handler becomes a pure state-transition function, reading each `setX` call as
an immediate sequential update.  The `localStorage` key `tetris-count` is the
`tetrisCount` field; the fresh output of `generateRandomTetromino` is passed
in as a parameter wherever the source calls it. -/

/-- One entry of the `ACHIEVEMENTS` catalog / persisted achievement list
    (the render-only `name`/`description`/`icon` strings are omitted). -/
structure Achievement where
  id : String
  points : Nat
  unlocked : Bool
deriving DecidableEq, Repr

/-- Fallback achievement for the (never taken) out-of-range list read. -/
def noAchievement : Achievement := ⟨"", 0, false⟩

/-- The whole session state: the `GameState` record plus the board, the
    active and preview pieces, the activity flags and the persisted
    `tetris-count` counter. -/
structure TetrisState where
  score : Nat
  level : Nat
  lines : Nat
  highScore : Nat
  isGameOver : Bool
  galaxyPoints : Nat
  achievements : List Achievement
  totalLinesCleared : Nat
  totalPiecesPlaced : Nat
  totalHardDrops : Nat
  gameBoard : Board
  currentPiece : Option Tetromino
  currentPosition : Position
  nextPiece : Option Tetromino
  isGameActive : Bool
  isPaused : Bool
  tetrisCount : Nat
deriving DecidableEq, Repr

/-- The unlock condition tested for each achievement id inside
    `checkAchievements` (`tetris-master` is handled in `handlePieceLanded`
    and unknown ids never unlock). -/
def achievementUnlockCond (s : TetrisState) (id : String) : Bool :=
  if id = "cosmic-novice" then s.score ≥ 1000
  else if id = "space-explorer" then s.level ≥ 5
  else if id = "line-clearer" then s.totalLinesCleared ≥ 50
  else if id = "galaxy-hero" then s.score ≥ 10000
  else if id = "speed-runner" then s.level ≥ 10
  else if id = "hard-dropper" then s.totalHardDrops ≥ 50
  else false

/-- `checkAchievements(state)`: walk the achievement list, unlocking every
    locked achievement whose condition holds and summing the newly earned
    points; returns the updated list and new galaxy-point total when any
    points were earned, `none` otherwise. -/
def checkAchievements (s : TetrisState) : Option (List Achievement × Nat) :=
  let step := s.achievements.foldl
    (fun (acc : List Achievement × Nat) a =>
      if a.unlocked then (acc.1 ++ [a], acc.2)
      else
        let u := achievementUnlockCond s a.id
        (acc.1 ++ [{ a with unlocked := u || a.unlocked }],
         if u then acc.2 + a.points else acc.2))
    ([], 0)
  if step.2 > 0 then some (step.1, s.galaxyPoints + step.2) else none

/-- `handleGameOver`: record a new high score when beaten, apply any
    achievement updates, set `isGameOver` and clear `isGameActive`. -/
def handleGameOver (s : TetrisState) : TetrisState :=
  let s1 := if s.score > s.highScore then { s with highScore := s.score } else s
  let s2 :=
    match checkAchievements s with
    | some (ach, gp) =>
      { s1 with isGameOver := true, achievements := ach, galaxyPoints := gp }
    | none => { s1 with isGameOver := true }
  { s2 with isGameActive := false }

/-- The `switch (linesCleared)` scoring table of `handlePieceLanded`
    (`default` branch leaves `pointsScored = 0`). -/
def scoreForLines (linesCleared level : Nat) : Nat :=
  match linesCleared with
  | 1 => 100 * level
  | 2 => 300 * level
  | 3 => 500 * level
  | 4 => 800 * level
  | _ => 0

/-- Spawn column for a piece: `Math.floor((BOARD_WIDTH - shape[0].length) / 2)`. -/
def spawnX (piece : Tetromino) : Int :=
  Int.fdiv ((BOARD_WIDTH : Int) - ((piece.shape.getD 0 []).length : Int)) 2

/-- The `tetris-master` bookkeeping of `handlePieceLanded`, taken when four
    lines were cleared: if the achievement exists and is locked, increment the
    persisted tetris counter and, on reaching five, unlock it and earn its
    points.  Returns (achievements, earned points, tetris counter). -/
def tetrisMasterUpdate (s : TetrisState) : List Achievement × Nat × Nat :=
  match s.achievements.findIdx? (fun a => a.id = "tetris-master") with
  | some i =>
    let a := s.achievements.getD i noAchievement
    if !a.unlocked then
      let newCount := s.tetrisCount + 1
      if newCount ≥ 5 then
        (s.achievements.set i { a with unlocked := true }, a.points, newCount)
      else (s.achievements, 0, newCount)
    else (s.achievements, 0, s.tetrisCount)
  | none => (s.achievements, 0, s.tetrisCount)

/-- `handlePieceLanded`: merge the active piece into the board, clear lines,
    update score/lines/level/statistics (with the `tetris-master` bookkeeping
    on a four-line clear), then promote the preview piece to active at its
    spawn position — or transition to game over when it collides immediately.
    `rand` is the fresh random piece that becomes the new preview. -/
def handlePieceLanded (s : TetrisState) (rand : Tetromino) : TetrisState :=
  match s.currentPiece with
  | none => s
  | some piece =>
    let merged := mergeTetrominoWithBoard s.gameBoard piece s.currentPosition
    let cleared := clearLines merged
    let clearedBoard := cleared.1
    let linesCleared := cleared.2
    let s1 := { s with gameBoard := clearedBoard }
    let s2 :=
      if linesCleared > 0 then
        let pointsScored := scoreForLines linesCleared s1.level
        let newLines := s1.lines + linesCleared
        let newTotalLinesCleared := s1.totalLinesCleared + linesCleared
        let newLevel := newLines / 10 + 1
        let tm :=
          if linesCleared = 4 then tetrisMasterUpdate s1
          else (s1.achievements, 0, s1.tetrisCount)
        { s1 with score := s1.score + pointsScored,
                  lines := newLines,
                  level := newLevel,
                  totalLinesCleared := newTotalLinesCleared,
                  totalPiecesPlaced := s1.totalPiecesPlaced + 1,
                  achievements := tm.1,
                  galaxyPoints := s1.galaxyPoints + tm.2.1,
                  tetrisCount := tm.2.2 }
      else
        { s1 with totalPiecesPlaced := s1.totalPiecesPlaced + 1 }
    match s2.nextPiece with
    | none => s2
    | some newPiece =>
      let newX := spawnX newPiece
      if checkCollision clearedBoard newPiece.shape ⟨newX, 0⟩ then
        handleGameOver s2
      else
        { s2 with currentPiece := some newPiece,
                  currentPosition := ⟨newX, 0⟩,
                  nextPiece := some rand }

/-- The common early-out of every input handler:
    `if (!isGameActive || isPaused || !currentPiece) return`. -/
def inputBlocked (s : TetrisState) : Bool :=
  !s.isGameActive || s.isPaused || s.currentPiece.isNone

/-- `softDrop`: move the active piece one row down when clear (+1 score),
    otherwise treat it as landed. -/
def softDrop (s : TetrisState) (rand : Tetromino) : TetrisState :=
  if inputBlocked s then s else
  match s.currentPiece with
  | none => s
  | some piece =>
    let newY := s.currentPosition.y + 1
    if !checkCollision s.gameBoard piece.shape ⟨s.currentPosition.x, newY⟩ then
      { s with currentPosition := ⟨s.currentPosition.x, newY⟩,
               score := s.score + 1 }
    else
      handlePieceLanded s rand

/-- `moveLeft`: shift the active piece one column left when clear. -/
def moveLeft (s : TetrisState) : TetrisState :=
  if inputBlocked s then s else
  match s.currentPiece with
  | none => s
  | some piece =>
    let newX := s.currentPosition.x - 1
    if !checkCollision s.gameBoard piece.shape ⟨newX, s.currentPosition.y⟩ then
      { s with currentPosition := ⟨newX, s.currentPosition.y⟩ }
    else s

/-- `moveRight`: shift the active piece one column right when clear. -/
def moveRight (s : TetrisState) : TetrisState :=
  if inputBlocked s then s else
  match s.currentPiece with
  | none => s
  | some piece =>
    let newX := s.currentPosition.x + 1
    if !checkCollision s.gameBoard piece.shape ⟨newX, s.currentPosition.y⟩ then
      { s with currentPosition := ⟨newX, s.currentPosition.y⟩ }
    else s

/-- `rotate`: rotate the active piece clockwise, trying the unchanged
    position first and then (the `offset = 1, 2` loop, right before left
    within each offset) the wall kicks `x+1`, `x-1`, `x+2`, `x-2`; the first
    collision-free candidate wins, and on total failure nothing changes. -/
def rotate (s : TetrisState) : TetrisState :=
  if inputBlocked s then s else
  match s.currentPiece with
  | none => s
  | some piece =>
    let rotatedShape := rotateMatrix piece.shape
    let pos := s.currentPosition
    if !checkCollision s.gameBoard rotatedShape pos then
      { s with currentPiece := some { piece with shape := rotatedShape } }
    else if !checkCollision s.gameBoard rotatedShape ⟨pos.x + 1, pos.y⟩ then
      { s with currentPiece := some { piece with shape := rotatedShape },
               currentPosition := ⟨pos.x + 1, pos.y⟩ }
    else if !checkCollision s.gameBoard rotatedShape ⟨pos.x - 1, pos.y⟩ then
      { s with currentPiece := some { piece with shape := rotatedShape },
               currentPosition := ⟨pos.x - 1, pos.y⟩ }
    else if !checkCollision s.gameBoard rotatedShape ⟨pos.x + 2, pos.y⟩ then
      { s with currentPiece := some { piece with shape := rotatedShape },
               currentPosition := ⟨pos.x + 2, pos.y⟩ }
    else if !checkCollision s.gameBoard rotatedShape ⟨pos.x - 2, pos.y⟩ then
      { s with currentPiece := some { piece with shape := rotatedShape },
               currentPosition := ⟨pos.x - 2, pos.y⟩ }
    else s

/-- The `while (!checkCollision(..., y + 1)) y++` search of `hardDrop`,
    with fuel (the fall distance of a piece never exceeds the board height,
    so `hardDrop` supplies `BOARD_HEIGHT + 1`). -/
def findDropY : Nat → Board → List (List Bool) → Int → Int → Int
  | 0, _, _, _, y => y
  | fuel + 1, board, shape, x, y =>
    if !checkCollision board shape ⟨x, y + 1⟩ then
      findDropY fuel board shape x (y + 1)
    else y

/-- `hardDrop`: drop the active piece to the lowest collision-free row.
    With zero fall distance it just lands; otherwise it moves the piece,
    counts a hard drop (possibly unlocking `hard-dropper`), awards
    `2 × distance` points and then lands. -/
def hardDrop (s : TetrisState) (rand : Tetromino) : TetrisState :=
  if inputBlocked s then s else
  match s.currentPiece with
  | none => s
  | some piece =>
    let newX := s.currentPosition.x
    let newY := findDropY (BOARD_HEIGHT + 1) s.gameBoard piece.shape newX
      s.currentPosition.y
    let dropDistance := (newY - s.currentPosition.y).toNat
    if dropDistance = 0 then
      handlePieceLanded s rand
    else
      let s1 := { s with currentPosition := ⟨newX, newY⟩ }
      let newTotalHardDrops := s.totalHardDrops + 1
      let hd :=
        if newTotalHardDrops ≥ 50 then
          match s.achievements.findIdx? (fun a => a.id = "hard-dropper") with
          | some i =>
            let a := s.achievements.getD i noAchievement
            if !a.unlocked then
              (s.achievements.set i { a with unlocked := true }, a.points)
            else (s.achievements, 0)
          | none => (s.achievements, 0)
        else (s.achievements, 0)
      let s2 := { s1 with score := s1.score + dropDistance * 2,
                          totalHardDrops := newTotalHardDrops,
                          achievements := hd.1,
                          galaxyPoints := s1.galaxyPoints + hd.2 }
      handlePieceLanded s2 rand

/-- `initializeGame`: fresh empty board, spawn the first piece centered at the
    top, install the preview piece, reset the persisted tetris counter when
    `tetris-master` is still locked, reset `score`/`level`/`lines`/`isGameOver`
    while keeping the high score, achievements, galaxy points and cumulative
    totals, and mark the game active and unpaused.  `firstPiece` and `nextP`
    are the two freshly generated random pieces. -/
def initializeGame (s : TetrisState) (firstPiece nextP : Tetromino) : TetrisState :=
  let startX := spawnX firstPiece
  let tcReset :=
    match s.achievements.findIdx? (fun a => a.id = "tetris-master") with
    | some i =>
      if !(s.achievements.getD i noAchievement).unlocked then 0 else s.tetrisCount
    | none => s.tetrisCount
  { s with gameBoard := createEmptyBoard,
           currentPiece := some firstPiece,
           currentPosition := ⟨startX, 0⟩,
           nextPiece := some nextP,
           tetrisCount := tcReset,
           score := 0,
           level := 1,
           lines := 0,
           isGameOver := false,
           isGameActive := true,
           isPaused := false }

/-! ## Concrete boards and states used by witnesses and counterexamples -/

/-- The starting (all-locked) `ACHIEVEMENTS` catalog of the hook. -/
def ACHIEVEMENTS : List Achievement :=
  [⟨"cosmic-novice", 10, false⟩,
   ⟨"space-explorer", 25, false⟩,
   ⟨"line-clearer", 30, false⟩,
   ⟨"tetris-master", 50, false⟩,
   ⟨"galaxy-hero", 100, false⟩,
   ⟨"speed-runner", 75, false⟩,
   ⟨"hard-dropper", 35, false⟩]

/-- A completely occupied row. -/
def fullRow : Row := List.replicate BOARD_WIDTH (some ⟨"I"⟩)

/-- A board whose two bottom rows are full. -/
def sampleBoard : Board := List.replicate 18 emptyRow ++ [fullRow, fullRow]

/-- A running game with an `O` piece resting on the floor. -/
def baseState : TetrisState where
  score := 0
  level := 1
  lines := 0
  highScore := 0
  isGameOver := false
  galaxyPoints := 0
  achievements := ACHIEVEMENTS
  totalLinesCleared := 0
  totalPiecesPlaced := 0
  totalHardDrops := 0
  gameBoard := createEmptyBoard
  currentPiece := some tetroO
  currentPosition := ⟨4, 18⟩
  nextPiece := some tetroO
  isGameActive := true
  isPaused := false
  tetrisCount := 0

/-- A finished game with non-trivial persistent statistics. -/
def gameOverState : TetrisState :=
  { baseState with isGameOver := true, isGameActive := false,
                   score := 1234, level := 3, lines := 25, highScore := 777,
                   galaxyPoints := 10, totalLinesCleared := 60,
                   totalPiecesPlaced := 40, totalHardDrops := 7 }

/-! ## C10: input handlers are no-ops when the game is blocked -/

/-- C10: every player-input operation (`moveLeft`, `moveRight`, `rotate`,
    `softDrop`, `hardDrop`) leaves the whole state unchanged whenever the game
    is not active, is paused, or there is no current piece. -/
theorem blocked_inputs_are_noops (s : TetrisState) (r : Tetromino)
    (h : s.isGameActive = false ∨ s.isPaused = true ∨ s.currentPiece = none) :
    moveLeft s = s ∧ moveRight s = s ∧ rotate s = s ∧
    softDrop s r = s ∧ hardDrop s r = s := by
  have hb : inputBlocked s = true := by
    rcases h with h | h | h <;> simp [inputBlocked, h]
  refine ⟨?_, ?_, ?_, ?_, ?_⟩ <;> simp [moveLeft, moveRight, rotate, softDrop, hardDrop, hb]

/-- Witness for C10 at a concrete paused state. -/
theorem blocked_inputs_are_noops_witness :
    moveLeft { baseState with isPaused := true } = { baseState with isPaused := true } ∧
    moveRight { baseState with isPaused := true } = { baseState with isPaused := true } ∧
    rotate { baseState with isPaused := true } = { baseState with isPaused := true } ∧
    softDrop { baseState with isPaused := true } tetroI = { baseState with isPaused := true } ∧
    hardDrop { baseState with isPaused := true } tetroI = { baseState with isPaused := true } :=
  blocked_inputs_are_noops { baseState with isPaused := true } tetroI (Or.inr (Or.inl rfl))

/-! ## C6: starting a new game resets the session and keeps the persistent stats -/

/-- C6: after a game over, starting a new game resets `score`, `level`,
    `lines` and `isGameOver` to `0, 1, 0, false` while leaving `highScore`,
    `achievements`, `galaxyPoints`, `totalLinesCleared`, `totalPiecesPlaced`
    and `totalHardDrops` exactly as they were. -/
theorem initializeGame_resets_and_preserves (s : TetrisState) (p q : Tetromino)
    (h : s.isGameOver = true) :
    (initializeGame s p q).score = 0 ∧
    (initializeGame s p q).level = 1 ∧
    (initializeGame s p q).lines = 0 ∧
    (initializeGame s p q).isGameOver = false ∧
    (initializeGame s p q).highScore = s.highScore ∧
    (initializeGame s p q).achievements = s.achievements ∧
    (initializeGame s p q).galaxyPoints = s.galaxyPoints ∧
    (initializeGame s p q).totalLinesCleared = s.totalLinesCleared ∧
    (initializeGame s p q).totalPiecesPlaced = s.totalPiecesPlaced ∧
    (initializeGame s p q).totalHardDrops = s.totalHardDrops := by
  simp [initializeGame]

/-- Witness for C6 at a concrete finished game. -/
theorem initializeGame_resets_and_preserves_witness :
    (initializeGame gameOverState tetroI tetroT).score = 0 ∧
    (initializeGame gameOverState tetroI tetroT).level = 1 ∧
    (initializeGame gameOverState tetroI tetroT).lines = 0 ∧
    (initializeGame gameOverState tetroI tetroT).isGameOver = false ∧
    (initializeGame gameOverState tetroI tetroT).highScore = gameOverState.highScore ∧
    (initializeGame gameOverState tetroI tetroT).achievements = gameOverState.achievements ∧
    (initializeGame gameOverState tetroI tetroT).galaxyPoints = gameOverState.galaxyPoints ∧
    (initializeGame gameOverState tetroI tetroT).totalLinesCleared = gameOverState.totalLinesCleared ∧
    (initializeGame gameOverState tetroI tetroT).totalPiecesPlaced = gameOverState.totalPiecesPlaced ∧
    (initializeGame gameOverState tetroI tetroT).totalHardDrops = gameOverState.totalHardDrops :=
  initializeGame_resets_and_preserves gameOverState tetroI tetroT rfl

/-! ## C8: rotation is a fourth root of the identity on square matrices -/

lemma rotateMatrix_length (m : List (List Bool)) :
    (rotateMatrix m).length = m.length := by
  simp [rotateMatrix]

lemma rotateMatrix_getD (m : List (List Bool)) (a : Nat) (ha : a < m.length) :
    (rotateMatrix m).getD a [] =
      (List.range m.length).map
        (fun b => (m.getD (m.length - 1 - b) []).getD a false) := by
  simp [rotateMatrix, List.getD_eq_getElem?_getD, List.getElem?_map,
    List.getElem?_range, ha]

lemma rotateMatrix_row_length (m : List (List Bool)) (a : Nat)
    (ha : a < m.length) : ((rotateMatrix m).getD a []).length = m.length := by
  rw [rotateMatrix_getD m a ha]; simp

lemma rotateMatrix_entry (m : List (List Bool)) (a b : Nat)
    (ha : a < m.length) (hb : b < m.length) :
    ((rotateMatrix m).getD a []).getD b false =
      (m.getD (m.length - 1 - b) []).getD a false := by
  rw [rotateMatrix_getD m a ha]
  simp [List.getD_eq_getElem?_getD, List.getElem?_map, List.getElem?_range, hb]

lemma matrix_eq_of_entries (p q : List (List Bool)) (hl : p.length = q.length)
    (hrow : ∀ a, a < p.length → (p.getD a []).length = (q.getD a []).length)
    (hent : ∀ a b, a < p.length → b < (p.getD a []).length →
      (p.getD a []).getD b false = (q.getD a []).getD b false) : p = q := by
  apply List.ext_getElem hl
  intro a h1 h2
  have hrl : p[a].length = q[a].length := by
    have := hrow a h1
    rwa [List.getD_eq_getElem p [] h1, List.getD_eq_getElem q [] h2] at this
  apply List.ext_getElem hrl
  intro b hb1 hb2
  have := hent a b h1 (by rwa [List.getD_eq_getElem p [] h1])
  rwa [List.getD_eq_getElem p [] h1, List.getD_eq_getElem q [] h2,
    List.getD_eq_getElem _ _ hb1, List.getD_eq_getElem _ _ hb2] at this

lemma mem_row_length (m : List (List Bool)) (a : Nat) (ha : a < m.length)
    (hsq : ∀ row ∈ m, row.length = m.length) :
    (m.getD a []).length = m.length := by
  rw [List.getD_eq_getElem m [] ha]
  exact hsq m[a] (List.getElem_mem ha)

/-- C8: `rotateMatrix` satisfies `result[j][N-1-i] = matrix[i][j]` and
    applying it four times to any square boolean matrix (in particular any
    catalog piece shape) returns the original matrix. -/
theorem rotateMatrix_entry_and_fourth_power (m : List (List Bool))
    (hsq : ∀ row ∈ m, row.length = m.length) :
    (∀ i j, i < m.length → j < m.length →
        ((rotateMatrix m).getD j []).getD (m.length - 1 - i) false =
          (m.getD i []).getD j false) ∧
    rotateMatrix (rotateMatrix (rotateMatrix (rotateMatrix m))) = m := by
  set n := m.length with hn
  constructor
  · intro i j hi hj
    have h1 : n - 1 - (n - 1 - i) = i := by omega
    rw [rotateMatrix_entry m j (n - 1 - i) hj (by omega), h1]
  · have l1 : (rotateMatrix m).length = n := rotateMatrix_length m
    have l2 : (rotateMatrix (rotateMatrix m)).length = n := by
      rw [rotateMatrix_length, l1]
    have l3 : (rotateMatrix (rotateMatrix (rotateMatrix m))).length = n := by
      rw [rotateMatrix_length, l2]
    have l4 : (rotateMatrix (rotateMatrix (rotateMatrix (rotateMatrix m)))).length = n := by
      rw [rotateMatrix_length, l3]
    apply matrix_eq_of_entries _ _ (l4.trans hn)
    · intro a ha
      rw [l4] at ha
      have := rotateMatrix_row_length (rotateMatrix (rotateMatrix (rotateMatrix m))) a
        (by rw [l3]; exact ha)
      rw [l3] at this
      rw [this, mem_row_length m a ha hsq]
    · intro a b ha hb
      rw [l4] at ha
      have hb' : b < n := by
        have := rotateMatrix_row_length (rotateMatrix (rotateMatrix (rotateMatrix m))) a
          (by rw [l3]; exact ha)
        rw [l3] at this
        rw [this] at hb
        exact hb
      have hnpos : 0 < n := Nat.pos_of_ne_zero (by omega)
      have e4 := rotateMatrix_entry (rotateMatrix (rotateMatrix (rotateMatrix m))) a b
        (by rw [l3]; exact ha) (by rw [l3]; exact hb')
      rw [l3] at e4
      have e3 := rotateMatrix_entry (rotateMatrix (rotateMatrix m)) (n - 1 - b) a
        (by rw [l2]; omega) (by rw [l2]; exact ha)
      rw [l2] at e3
      have e2 := rotateMatrix_entry (rotateMatrix m) (n - 1 - a) (n - 1 - b)
        (by rw [l1]; omega) (by rw [l1]; omega)
      rw [l1] at e2
      have hbb : n - 1 - (n - 1 - b) = b := by omega
      rw [hbb] at e2
      have e1 := rotateMatrix_entry m b (n - 1 - a) hb' (by omega)
      have haa : n - 1 - (n - 1 - a) = a := by omega
      rw [← hn, haa] at e1
      rw [e4, e3, e2, e1]

/-- Witness for C8 at the catalog `T` piece. -/
theorem rotateMatrix_entry_and_fourth_power_witness :
    (∀ i j, i < tetroT.shape.length → j < tetroT.shape.length →
        ((rotateMatrix tetroT.shape).getD j []).getD
            (tetroT.shape.length - 1 - i) false =
          (tetroT.shape.getD i []).getD j false) ∧
    rotateMatrix (rotateMatrix (rotateMatrix (rotateMatrix tetroT.shape))) =
      tetroT.shape :=
  rotateMatrix_entry_and_fourth_power tetroT.shape (by decide)

/-! ## C1: characterization of `checkCollision` -/

/-- The collision condition actually implemented: some occupied shape cell
    leaves `[0, BOARD_WIDTH)` horizontally or `[0, BOARD_HEIGHT)` vertically
    (negative board `y` included), or lands on an occupied board cell. -/
def collides (board : Board) (shape : List (List Bool)) (pos : Position) : Prop :=
  ∃ y < shape.length, ∃ x < (shape.getD y []).length,
    (shape.getD y []).getD x false = true ∧
    ((↑x + pos.x < 0 ∨ ↑x + pos.x ≥ (BOARD_WIDTH : Int) ∨
      ↑y + pos.y < 0 ∨ ↑y + pos.y ≥ (BOARD_HEIGHT : Int)) ∨
     (↑y + pos.y ≥ 0 ∧
      (boardCell board (↑y + pos.y).toNat (↑x + pos.x).toNat).isSome = true))

/-- The collision condition exactly as claim C1 states it, written from the
    spec's words: cells with board `y < 0` are exempt from the occupancy
    check and from the vertical bound check, remaining subject only to the
    horizontal bound check. -/
def collidesSpecC1 (board : Board) (shape : List (List Bool)) (pos : Position) : Prop :=
  ∃ y < shape.length, ∃ x < (shape.getD y []).length,
    (shape.getD y []).getD x false = true ∧
    ((↑x + pos.x < 0 ∨ ↑x + pos.x ≥ (BOARD_WIDTH : Int) ∨
      ↑y + pos.y ≥ (BOARD_HEIGHT : Int)) ∨
     (↑y + pos.y ≥ 0 ∧
      (boardCell board (↑y + pos.y).toNat (↑x + pos.x).toNat).isSome = true))

/-- C1 counterexample: a single occupied cell at board `y = -1`, inside the
    horizontal bounds, over the empty board.  The code reports a collision
    (the `boardY < 0` bound check fires) while the claim's condition says a
    cell at negative `y` must not collide merely for being above the board. -/
theorem checkCollision_negative_y_counterexample :
    ¬ (checkCollision createEmptyBoard [[true]] ⟨0, -1⟩ = true ↔
        collidesSpecC1 createEmptyBoard [[true]] ⟨0, -1⟩) := by
  intro h
  have h1 : checkCollision createEmptyBoard [[true]] ⟨0, -1⟩ = true := by decide
  rcases h.mp h1 with ⟨y, hy, x, hx, hcell, hrest⟩
  simp only [List.length_cons, List.length_nil] at hy
  have hy0 : y = 0 := by omega
  subst hy0
  have hx0 : x = 0 := by simpa using hx
  subst hx0
  norm_num [boardCell, createEmptyBoard, BOARD_WIDTH, BOARD_HEIGHT] at hrest

/-- C1 (amended): `checkCollision` returns `true` iff some occupied shape
    cell maps outside `[0, BOARD_WIDTH)` horizontally or outside
    `[0, BOARD_HEIGHT)` vertically — cells with negative board `y` do
    collide — or lands on an already-occupied board cell; in particular a
    piece fully inside bounds with no overlap yields `false`. -/
theorem checkCollision_iff_collides (board : Board) (shape : List (List Bool))
    (pos : Position) :
    checkCollision board shape pos = true ↔ collides board shape pos := by
  simp only [checkCollision, collides, List.any_eq_true, List.mem_range,
    Bool.and_eq_true, Bool.or_eq_true, decide_eq_true_eq, ge_iff_le]
  constructor
  · rintro ⟨y, hy, x, hx, hcell, hrest⟩
    exact ⟨y, hy, x, hx, hcell, by tauto⟩
  · rintro ⟨y, hy, x, hx, hcell, hrest⟩
    exact ⟨y, hy, x, hx, hcell, by tauto⟩

/-! ## C4 and C9: characterization of `clearLines` -/

/-- Well-formed board: exactly `BOARD_HEIGHT` rows of `BOARD_WIDTH` cells. -/
def boardWF (b : Board) : Prop :=
  b.length = BOARD_HEIGHT ∧ ∀ row ∈ b, row.length = BOARD_WIDTH

lemma isFull_emptyRow : isFull emptyRow = false := rfl

/-- The scanning loop removes exactly the full rows among the first `n` and
    prepends one empty row per removed row, leaving the remaining suffix
    untouched, provided the fuel dominates the iteration count. -/
lemma clearLoop_spec (fuel : Nat) : ∀ (b : Board) (n : Nat),
    n ≤ b.length →
    (∀ row ∈ b, row.length = BOARD_WIDTH) →
    ((b.take n).filter isFull).length + n < fuel →
    clearLoop fuel b n =
      (List.replicate (((b.take n).filter isFull).length) emptyRow ++
         (b.take n).filter (fun r => !isFull r) ++ b.drop n,
       ((b.take n).filter isFull).length) := by
  induction fuel with
  | zero => intro b n _ _ hm; omega
  | succ f ih =>
    intro b n hn hw hm
    match n with
    | 0 => simp [clearLoop]
    | Nat.succ m =>
      have hmlt : m < b.length := by omega
      have hgd : b.getD m [] = b[m] := List.getD_eq_getElem b [] hmlt
      have htake : b.take (m + 1) = b.take m ++ [b[m]] := by
        rw [List.take_succ]
        simp [List.getElem?_eq_getElem hmlt]
      have hdrop : b.drop m = b[m] :: b.drop (m + 1) :=
        List.drop_eq_getElem_cons hmlt
      have htklen : (b.take m).length = m := by
        simp [List.length_take]
        omega
      by_cases hfull : isFull (b.getD m []) = true
      · -- a full row at index m: erase it, prepend an empty row, stay at m
        have hfullElem : isFull b[m] = true := hgd ▸ hfull
        have hK : ((b.take (m + 1)).filter isFull).length =
            ((b.take m).filter isFull).length + 1 := by
          rw [htake, List.filter_append]
          simp [hfullElem]
        set b' : Board := emptyRow :: b.eraseIdx m with hb'
        have hlen' : b'.length = b.length := by
          rw [hb', List.length_cons, List.length_eraseIdx]
          simp only [hmlt, if_true]
          omega
        have hw' : ∀ row ∈ b', row.length = BOARD_WIDTH := by
          intro row hrow
          rw [hb', List.mem_cons] at hrow
          rcases hrow with h | h
          · rw [h, emptyRow]; simp
          · exact hw row (List.eraseIdx_subset _ _ h)
        have htake' : b'.take (m + 1) = emptyRow :: b.take m := by
          rw [hb', List.take_succ_cons]
          congr 1
          rw [List.eraseIdx_eq_take_drop_succ,
            List.take_append_of_le_length (by omega : m ≤ (b.take m).length),
            List.take_take]
          simp
        have hdrop' : b'.drop (m + 1) = b.drop (m + 1) := by
          rw [hb', List.drop_succ_cons, List.eraseIdx_eq_take_drop_succ,
            List.drop_append_of_le_length (by omega : m ≤ (b.take m).length),
            List.drop_eq_nil_of_le (by omega : (b.take m).length ≤ m)]
          simp
        have hKf : ((b'.take (m + 1)).filter isFull).length =
            ((b.take m).filter isFull).length := by
          rw [htake', List.filter_cons]
          simp [isFull_emptyRow]
        have hmeas' : ((b'.take (m + 1)).filter isFull).length + (m + 1) < f := by
          rw [hKf]
          rw [hK] at hm
          omega
        have hrec := ih b' (m + 1) (by omega) hw' hmeas'
        simp only [clearLoop, hfull, if_true]
        rw [hrec]
        have hnotf : (b.take (m + 1)).filter (fun r => !isFull r) =
            (b.take m).filter (fun r => !isFull r) := by
          rw [htake, List.filter_append]
          simp [hfullElem]
        refine Prod.ext ?_ ?_ <;> simp only
        · rw [hKf, htake', hK, hnotf, hdrop', List.filter_cons]
          simp only [isFull_emptyRow, Bool.not_false, if_true]
          rw [List.replicate_succ']
          simp [List.append_assoc]
        · rw [hKf, hK]
      · -- row m is not full: move on to index m - 1
        simp only [Bool.not_eq_true] at hfull
        have hfullElem : isFull b[m] = false := hgd ▸ hfull
        have hK : ((b.take (m + 1)).filter isFull).length =
            ((b.take m).filter isFull).length := by
          rw [htake, List.filter_append]
          simp [hfullElem]
        have hmeas' : ((b.take m).filter isFull).length + m < f := by
          rw [hK] at hm
          omega
        have hrec := ih b m (by omega) hw hmeas'
        simp only [clearLoop, hfull, Bool.false_eq_true, if_false]
        rw [hrec]
        have hnotf : (b.take (m + 1)).filter (fun r => !isFull r) =
            (b.take m).filter (fun r => !isFull r) ++ [b[m]] := by
          rw [htake, List.filter_append]
          simp [hfullElem]
        refine Prod.ext ?_ ?_ <;> simp only
        · rw [hK, hnotf, hdrop]
          simp [List.append_assoc]
        · rw [hK]

/-- C4: for every well-formed board, `clearLines` returns the count of full
    rows, removes exactly those rows (rows above shifting down), and prepends
    one empty row at the top per cleared row. -/
theorem clearLines_spec (b : Board) (hlen : b.length = BOARD_HEIGHT)
    (hw : ∀ row ∈ b, row.length = BOARD_WIDTH) :
    clearLines b =
      (List.replicate ((b.filter isFull).length) emptyRow ++
         b.filter (fun r => !isFull r),
       (b.filter isFull).length) := by
  unfold clearLines
  have htake : b.take BOARD_HEIGHT = b := by
    rw [← hlen]; exact List.take_length b
  have hdrop : b.drop BOARD_HEIGHT = [] := by
    rw [← hlen]; exact List.drop_length b
  have hmeas : ((b.take BOARD_HEIGHT).filter isFull).length + BOARD_HEIGHT <
      2 * BOARD_HEIGHT + 1 := by
    have h1 : ((b.take BOARD_HEIGHT).filter isFull).length ≤ b.length := by
      rw [htake]; exact List.length_filter_le _ _
    omega
  rw [clearLoop_spec (2 * BOARD_HEIGHT + 1) b BOARD_HEIGHT (le_of_eq hlen.symm)
    hw hmeas, htake, hdrop]
  simp

/-- Witness for C4 at a concrete board with two full bottom rows. -/
theorem clearLines_spec_witness :
    clearLines sampleBoard =
      (List.replicate ((sampleBoard.filter isFull).length) emptyRow ++
         sampleBoard.filter (fun r => !isFull r),
       (sampleBoard.filter isFull).length) :=
  clearLines_spec sampleBoard (by decide) (by decide)

lemma length_filter_add_length_filter_not (l : List Row) (p : Row → Bool) :
    (l.filter p).length + (l.filter (fun r => !p r)).length = l.length := by
  induction l with
  | nil => simp
  | cons a t ih =>
    by_cases h : p a <;> simp only [List.filter_cons, h] <;> simp <;> omega

/-- The board produced by `clearLines` contains no full row. -/
lemma clearLines_result_no_full_row (b : Board) (hlen : b.length = BOARD_HEIGHT)
    (hw : ∀ row ∈ b, row.length = BOARD_WIDTH) :
    (clearLines b).1.filter isFull = [] := by
  rw [clearLines_spec b hlen hw]
  simp only [List.filter_append]
  rw [List.filter_eq_nil_iff.mpr, List.filter_eq_nil_iff.mpr]
  · simp
  · intro a ha
    have := List.mem_filter.mp ha
    simp only [Bool.not_eq_true'] at this
    simp [this.2]
  · intro a ha
    have := List.eq_of_mem_replicate ha
    rw [this]
    simp [isFull_emptyRow]

/-- C9: `clearLines` is idempotent on its result — re-running it on the
    cleared board finds zero full lines. -/
theorem clearLines_idempotent (b : Board) (hlen : b.length = BOARD_HEIGHT)
    (hw : ∀ row ∈ b, row.length = BOARD_WIDTH) :
    (clearLines (clearLines b).1).2 = 0 := by
  have hlen' : (clearLines b).1.length = BOARD_HEIGHT := by
    rw [clearLines_spec b hlen hw]
    simp only [List.length_append, List.length_replicate]
    rw [length_filter_add_length_filter_not b isFull, hlen]
  have hw' : ∀ row ∈ (clearLines b).1, row.length = BOARD_WIDTH := by
    intro row hrow
    rw [clearLines_spec b hlen hw] at hrow
    simp only [List.mem_append] at hrow
    rcases hrow with h | h
    · rw [List.eq_of_mem_replicate h, emptyRow]; simp
    · exact hw row (List.mem_of_mem_filter h)
  rw [clearLines_spec _ hlen' hw', clearLines_result_no_full_row b hlen hw]
  simp

/-- Witness for C9 at a concrete board with two full bottom rows. -/
theorem clearLines_idempotent_witness :
    (clearLines (clearLines sampleBoard).1).2 = 0 :=
  clearLines_idempotent sampleBoard (by decide) (by decide)

/-! ## C7: characterization of `mergeTetrominoWithBoard` -/

lemma boardCell_setBoardCell (b : Board) (y x : Nat) (v : Cell) (r c : Nat)
    (hy : y < b.length) (hx : x < (b.getD y []).length) :
    boardCell (setBoardCell b y x v) r c =
      if y = r ∧ x = c then v else boardCell b r c := by
  unfold boardCell setBoardCell
  by_cases hyr : y = r
  · subst hyr
    rw [List.getD_eq_getElem?_getD (b.set y _), List.getElem?_set_self
      (by exact hy), Option.getD_some]
    by_cases hxc : x = c
    · subst hxc
      simp only [and_self, if_true]
      rw [List.getD_eq_getElem?_getD, List.getElem?_set_self (by exact hx),
        Option.getD_some]
    · simp only [hxc, and_false, if_false]
      rw [List.getD_eq_getElem?_getD, List.getElem?_set_ne (by exact hxc),
        ← List.getD_eq_getElem?_getD]
  · simp only [hyr, false_and, if_false]
    rw [List.getD_eq_getElem?_getD (b.set y _), List.getElem?_set_ne
      (by exact hyr), ← List.getD_eq_getElem?_getD]

lemma boardWF_setBoardCell (b : Board) (y x : Nat) (v : Cell)
    (h : boardWF b) (hy : y < b.length) : boardWF (setBoardCell b y x v) := by
  obtain ⟨hlen, hw⟩ := h
  refine ⟨by simp [setBoardCell, hlen], ?_⟩
  intro row hrow
  rcases List.mem_or_eq_of_mem_set hrow with hmem | heq
  · exact hw row hmem
  · subst heq
    rw [List.length_set, List.getD_eq_getElem b [] hy]
    exact hw _ (List.getElem_mem hy)

lemma boardWF_mergeCell (t : Tetromino) (pos : Position) (y : Nat)
    (acc : Board) (hacc : boardWF acc) (x : Nat) :
    boardWF (mergeCell t pos y acc x) := by
  unfold mergeCell
  split
  · split
    · rename_i hb
      refine boardWF_setBoardCell acc _ _ _ hacc ?_
      rw [hacc.1]
      omega
    · exact hacc
  · exact hacc

lemma boardWF_foldl_mergeCell (t : Tetromino) (pos : Position) (y : Nat) :
    ∀ (w : Nat) (acc : Board), boardWF acc →
      boardWF ((List.range w).foldl (mergeCell t pos y) acc) := by
  intro w
  induction w with
  | zero => intro acc hacc; simpa using hacc
  | succ w ih =>
    intro acc hacc
    rw [List.range_succ, List.foldl_append, List.foldl_cons, List.foldl_nil]
    exact boardWF_mergeCell t pos y _ (ih acc hacc) w

lemma boardWF_mergeRow (t : Tetromino) (pos : Position) (acc : Board)
    (hacc : boardWF acc) (y : Nat) : boardWF (mergeRow t pos acc y) :=
  boardWF_foldl_mergeCell t pos y _ acc hacc

lemma boardWF_foldl_mergeRow (t : Tetromino) (pos : Position) :
    ∀ (n : Nat) (acc : Board), boardWF acc →
      boardWF ((List.range n).foldl (mergeRow t pos) acc) := by
  intro n
  induction n with
  | zero => intro acc hacc; simpa using hacc
  | succ n ih =>
    intro acc hacc
    rw [List.range_succ, List.foldl_append, List.foldl_cons, List.foldl_nil]
    exact boardWF_mergeRow t pos _ (ih acc hacc) n

lemma exists_lt_succ_iff_of_not {P : Nat → Prop} (w : Nat) (hw : ¬ P w) :
    (∃ x, x < w + 1 ∧ P x) ↔ (∃ x, x < w ∧ P x) := by
  constructor
  · rintro ⟨x, hx, hPx⟩
    refine ⟨x, ?_, hPx⟩
    rcases Nat.lt_succ_iff_lt_or_eq.mp hx with h | h
    · exact h
    · exact absurd (h ▸ hPx) hw
  · rintro ⟨x, hx, hPx⟩
    exact ⟨x, by omega, hPx⟩

open Classical in
lemma foldl_mergeCell_boardCell (t : Tetromino) (pos : Position) (y : Nat)
    (r c : Nat) (hr : r < BOARD_HEIGHT) (hc : c < BOARD_WIDTH) :
    ∀ (w : Nat) (acc : Board), boardWF acc →
      boardCell ((List.range w).foldl (mergeCell t pos y) acc) r c =
        if ∃ x, x < w ∧ (t.shape.getD y []).getD x false = true ∧
            (↑y + pos.y : Int) = ↑r ∧ (↑x + pos.x : Int) = ↑c
        then some { type := t.type } else boardCell acc r c := by
  intro w
  induction w with
  | zero =>
    intro acc hacc
    simp
  | succ w ih =>
    intro acc hacc
    rw [List.range_succ, List.foldl_append, List.foldl_cons, List.foldl_nil]
    have hB : boardWF ((List.range w).foldl (mergeCell t pos y) acc) :=
      boardWF_foldl_mergeCell t pos y w acc hacc
    set B := (List.range w).foldl (mergeCell t pos y) acc with hBdef
    have hrowlen : ∀ n : Nat, n < B.length → (B.getD n []).length = BOARD_WIDTH := by
      intro n hn
      rw [List.getD_eq_getElem B [] hn]
      exact hB.2 _ (List.getElem_mem hn)
    by_cases hcell : (t.shape.getD y []).getD w false = true
    · by_cases hco : (↑y + pos.y : Int) = ↑r ∧ (↑w + pos.x : Int) = ↑c
      · -- the write at x = w targets exactly (r, c)
        have hr' : ((r : Nat) : Int) < (BOARD_HEIGHT : Int) := by
          exact_mod_cast Int.ofNat_lt.mpr hr
        have hc' : ((c : Nat) : Int) < (BOARD_WIDTH : Int) := by
          exact_mod_cast Int.ofNat_lt.mpr hc
        have hbY : (↑y + pos.y : Int).toNat = r := by omega
        have hbX : (↑w + pos.x : Int).toNat = c := by omega
        have hbnd : (↑y + pos.y : Int) ≥ 0 ∧ (↑y + pos.y : Int) < (BOARD_HEIGHT : Int) ∧
            (↑w + pos.x : Int) ≥ 0 ∧ (↑w + pos.x : Int) < (BOARD_WIDTH : Int) := by
          obtain ⟨h1, h2⟩ := hco
          omega
        have hyB : (↑y + pos.y : Int).toNat < B.length := by
          rw [hB.1]; omega
        have hxB : (↑w + pos.x : Int).toNat < (B.getD (↑y + pos.y : Int).toNat []).length := by
          rw [hrowlen _ hyB]; omega
        have hlhs : boardCell (mergeCell t pos y B w) r c = some { type := t.type } := by
          rw [mergeCell, if_pos hcell, if_pos hbnd,
            boardCell_setBoardCell B _ _ _ r c hyB hxB]
          exact if_pos ⟨hbY, hbX⟩
        rw [hlhs, if_pos ⟨w, by omega, hcell, hco.1, hco.2⟩]
      · -- the write at x = w (if any) targets a different cell
        have hnot : ¬ ((t.shape.getD y []).getD w false = true ∧
            (↑y + pos.y : Int) = ↑r ∧ (↑w + pos.x : Int) = ↑c) := by
          intro hcon
          exact hco ⟨hcon.2.1, hcon.2.2⟩
        have hiff := exists_lt_succ_iff_of_not (P := fun x =>
          (t.shape.getD y []).getD x false = true ∧
            (↑y + pos.y : Int) = ↑r ∧ (↑x + pos.x : Int) = ↑c) w hnot
        have hlhs : boardCell (mergeCell t pos y B w) r c = boardCell B r c := by
          rw [mergeCell, if_pos hcell]
          by_cases hbnd : (↑y + pos.y : Int) ≥ 0 ∧ (↑y + pos.y : Int) < (BOARD_HEIGHT : Int) ∧
              (↑w + pos.x : Int) ≥ 0 ∧ (↑w + pos.x : Int) < (BOARD_WIDTH : Int)
          · have hyB : (↑y + pos.y : Int).toNat < B.length := by
              rw [hB.1]; omega
            have hxB : (↑w + pos.x : Int).toNat <
                (B.getD (↑y + pos.y : Int).toNat []).length := by
              rw [hrowlen _ hyB]; omega
            rw [if_pos hbnd, boardCell_setBoardCell B _ _ _ r c hyB hxB]
            refine if_neg ?_
            intro hcon
            apply hco
            constructor <;> omega
          · rw [if_neg hbnd]
        rw [hlhs, ih acc hacc]
        by_cases hex : ∃ x, x < w ∧ (t.shape.getD y []).getD x false = true ∧
            (↑y + pos.y : Int) = ↑r ∧ (↑x + pos.x : Int) = ↑c
        · rw [if_pos hex, if_pos (hiff.mpr hex)]
        · rw [if_neg hex, if_neg (fun h => hex (hiff.mp h))]
    · -- shape cell (y, w) is empty: no write
      have hnot : ¬ ((t.shape.getD y []).getD w false = true ∧
          (↑y + pos.y : Int) = ↑r ∧ (↑w + pos.x : Int) = ↑c) := by
        intro hcon
        exact hcell hcon.1
      have hiff := exists_lt_succ_iff_of_not (P := fun x =>
        (t.shape.getD y []).getD x false = true ∧
          (↑y + pos.y : Int) = ↑r ∧ (↑x + pos.x : Int) = ↑c) w hnot
      have hlhs : boardCell (mergeCell t pos y B w) r c = boardCell B r c := by
        rw [mergeCell, if_neg (by simpa using hcell)]
      rw [hlhs, ih acc hacc]
      by_cases hex : ∃ x, x < w ∧ (t.shape.getD y []).getD x false = true ∧
          (↑y + pos.y : Int) = ↑r ∧ (↑x + pos.x : Int) = ↑c
      · rw [if_pos hex, if_pos (hiff.mpr hex)]
      · rw [if_neg hex, if_neg (fun h => hex (hiff.mp h))]

open Classical in
lemma foldl_mergeRow_boardCell (t : Tetromino) (pos : Position)
    (r c : Nat) (hr : r < BOARD_HEIGHT) (hc : c < BOARD_WIDTH) :
    ∀ (n : Nat) (acc : Board), boardWF acc →
      boardCell ((List.range n).foldl (mergeRow t pos) acc) r c =
        if ∃ y, y < n ∧ ∃ x, x < (t.shape.getD y []).length ∧
            (t.shape.getD y []).getD x false = true ∧
            (↑y + pos.y : Int) = ↑r ∧ (↑x + pos.x : Int) = ↑c
        then some { type := t.type } else boardCell acc r c := by
  intro n
  induction n with
  | zero => intro acc hacc; simp
  | succ n ih =>
    intro acc hacc
    rw [List.range_succ, List.foldl_append, List.foldl_cons, List.foldl_nil]
    have hB : boardWF ((List.range n).foldl (mergeRow t pos) acc) :=
      boardWF_foldl_mergeRow t pos n acc hacc
    set B := (List.range n).foldl (mergeRow t pos) acc with hBdef
    have hinner := foldl_mergeCell_boardCell t pos n r c hr hc
      ((t.shape.getD n []).length) B hB
    rw [mergeRow, hinner]
    by_cases hexn : ∃ x, x < (t.shape.getD n []).length ∧
        (t.shape.getD n []).getD x false = true ∧
        (↑n + pos.y : Int) = ↑r ∧ (↑x + pos.x : Int) = ↑c
    · rw [if_pos hexn, if_pos ⟨n, by omega, hexn⟩]
    · have hiff := exists_lt_succ_iff_of_not (P := fun y =>
        ∃ x, x < (t.shape.getD y []).length ∧
          (t.shape.getD y []).getD x false = true ∧
          (↑y + pos.y : Int) = ↑r ∧ (↑x + pos.x : Int) = ↑c) n hexn
      rw [if_neg hexn, ih acc hacc]
      by_cases hex : ∃ y, y < n ∧ ∃ x, x < (t.shape.getD y []).length ∧
          (t.shape.getD y []).getD x false = true ∧
          (↑y + pos.y : Int) = ↑r ∧ (↑x + pos.x : Int) = ↑c
      · rw [if_pos hex, if_pos (hiff.mpr hex)]
      · rw [if_neg hex, if_neg (fun h => hex (hiff.mp h))]

open Classical in
/-- C7: `mergeTetrominoWithBoard` returns a board of unchanged dimensions in
    which every occupied shape cell whose board coordinate lies inside
    `[0, BOARD_WIDTH) × [0, BOARD_HEIGHT)` is stamped with the piece kind,
    occupied cells mapping outside bounds are silently dropped, and every
    other cell equals the corresponding input cell. -/
theorem mergeTetrominoWithBoard_spec (b : Board) (t : Tetromino)
    (pos : Position) (hwf : boardWF b) :
    boardWF (mergeTetrominoWithBoard b t pos) ∧
    ∀ r c, r < BOARD_HEIGHT → c < BOARD_WIDTH →
      boardCell (mergeTetrominoWithBoard b t pos) r c =
        if ∃ y, y < t.shape.length ∧ ∃ x, x < (t.shape.getD y []).length ∧
            (t.shape.getD y []).getD x false = true ∧
            (↑y + pos.y : Int) = ↑r ∧ (↑x + pos.x : Int) = ↑c
        then some { type := t.type } else boardCell b r c := by
  constructor
  · exact boardWF_foldl_mergeRow t pos _ b hwf
  · intro r c hr hc
    exact foldl_mergeRow_boardCell t pos r c hr hc t.shape.length b hwf

open Classical in
/-- Witness for C7: the `O` piece merged into the empty board at `(4, 18)`. -/
theorem mergeTetrominoWithBoard_spec_witness :
    boardWF (mergeTetrominoWithBoard createEmptyBoard tetroO ⟨4, 18⟩) ∧
    ∀ r c, r < BOARD_HEIGHT → c < BOARD_WIDTH →
      boardCell (mergeTetrominoWithBoard createEmptyBoard tetroO ⟨4, 18⟩) r c =
        if ∃ y, y < tetroO.shape.length ∧
            ∃ x, x < (tetroO.shape.getD y []).length ∧
            (tetroO.shape.getD y []).getD x false = true ∧
            (↑y + (18 : Int)) = ↑r ∧ (↑x + (4 : Int)) = ↑c
        then some { type := tetroO.type } else boardCell createEmptyBoard r c :=
  mergeTetrominoWithBoard_spec createEmptyBoard tetroO ⟨4, 18⟩ ⟨rfl, by decide⟩

/-! ## C3: wall-kick attempt order of `rotate` -/

/-- The wall-kick offsets in the order the code tries them: unchanged,
    right 1, left 1, right 2, left 2. -/
def kickOffsets : List Int := [0, 1, -1, 2, -2]

/-- The wall-kick offsets in the order claim C3 states: unchanged, right 1,
    right 2, left 1, left 2 (written from the spec's words). -/
def claimKickOffsets : List Int := [0, 1, 2, -1, -2]

/-- First-success wall-kick semantics over a given offset order: the first
    offset whose shifted position is collision-free for the rotated shape is
    applied; if all collide nothing changes. -/
def rotateWithOffsets (s : TetrisState) (p : Tetromino) (offsets : List Int) :
    TetrisState :=
  match offsets.find? (fun off =>
    !checkCollision s.gameBoard (rotateMatrix p.shape)
      ⟨s.currentPosition.x + off, s.currentPosition.y⟩) with
  | some off =>
    { s with currentPiece := some { p with shape := rotateMatrix p.shape },
             currentPosition := ⟨s.currentPosition.x + off, s.currentPosition.y⟩ }
  | none => s

/-- The rotation operation exactly as claim C3 states it. -/
def rotateSpecC3 (s : TetrisState) : TetrisState :=
  if inputBlocked s then s else
  match s.currentPiece with
  | none => s
  | some piece => rotateWithOffsets s piece claimKickOffsets

/-- A row with two blocks at columns 5 and 6. -/
def kickRow : Row :=
  [none, none, none, none, none, some ⟨"Z"⟩, some ⟨"Z"⟩, none, none, none]

/-- A board whose only occupied cells are `(10, 5)` and `(10, 6)`. -/
def kickBoard : Board :=
  List.replicate 10 emptyRow ++ [kickRow] ++ List.replicate 9 emptyRow

/-- An active game with an `I` piece at `(3, 10)` over `kickBoard`: the
    rotated vertical bar is blocked at offsets `0` and `+1` but free at
    `-1` and `+2`. -/
def kickState : TetrisState :=
  { baseState with gameBoard := kickBoard,
                   currentPiece := some tetroI,
                   currentPosition := ⟨3, 10⟩ }

/-- C3 counterexample: at `kickState` the code applies the left-by-1 kick
    (new `x = 2`) because it tries `left 1` before `right 2`, while the
    claim's order would apply `right 2` (new `x = 5`). -/
theorem rotate_kick_order_counterexample :
    (rotate kickState).currentPosition.x = 2 ∧
    (rotateSpecC3 kickState).currentPosition.x = 5 ∧
    rotate kickState ≠ rotateSpecC3 kickState := by
  decide

/-- C3 (amended): `rotate` tries the rotated shape at offsets in the order
    unchanged, right 1, left 1, right 2, left 2; the first collision-free
    candidate is applied and on total failure the piece is unchanged. -/
theorem rotate_tries_kicks_in_code_order (s : TetrisState) (p : Tetromino)
    (hact : s.isGameActive = true) (hpause : s.isPaused = false)
    (hp : s.currentPiece = some p) :
    rotate s = rotateWithOffsets s p kickOffsets := by
  have hblocked : inputBlocked s = false := by
    simp [inputBlocked, hact, hpause, hp]
  unfold rotate rotateWithOffsets kickOffsets
  rw [hblocked]
  simp only [Bool.false_eq_true, if_false]
  rw [hp]
  simp only [Int.sub_eq_add_neg, List.find?]
  by_cases h0 : checkCollision s.gameBoard (rotateMatrix p.shape)
      s.currentPosition = true
  · have h0e : checkCollision s.gameBoard (rotateMatrix p.shape)
        ⟨s.currentPosition.x, s.currentPosition.y⟩ = true := h0
    by_cases h1 : checkCollision s.gameBoard (rotateMatrix p.shape)
        ⟨s.currentPosition.x + 1, s.currentPosition.y⟩ = true
    · by_cases h2 : checkCollision s.gameBoard (rotateMatrix p.shape)
          ⟨s.currentPosition.x + -1, s.currentPosition.y⟩ = true
      · by_cases h3 : checkCollision s.gameBoard (rotateMatrix p.shape)
            ⟨s.currentPosition.x + 2, s.currentPosition.y⟩ = true
        · by_cases h4 : checkCollision s.gameBoard (rotateMatrix p.shape)
              ⟨s.currentPosition.x + -2, s.currentPosition.y⟩ = true
          · simp [h0, h0e, h1, h2, h3, h4]
          · have h4f : checkCollision s.gameBoard (rotateMatrix p.shape)
                ⟨s.currentPosition.x + -2, s.currentPosition.y⟩ = false := by
              simpa using h4
            simp [h0, h0e, h1, h2, h3, h4f]
        · have h3f : checkCollision s.gameBoard (rotateMatrix p.shape)
              ⟨s.currentPosition.x + 2, s.currentPosition.y⟩ = false := by
            simpa using h3
          simp [h0, h0e, h1, h2, h3f]
      · have h2f : checkCollision s.gameBoard (rotateMatrix p.shape)
            ⟨s.currentPosition.x + -1, s.currentPosition.y⟩ = false := by
          simpa using h2
        simp [h0, h0e, h1, h2f]
    · have h1f : checkCollision s.gameBoard (rotateMatrix p.shape)
          ⟨s.currentPosition.x + 1, s.currentPosition.y⟩ = false := by
        simpa using h1
      simp [h0, h0e, h1f]
  · have h0f : checkCollision s.gameBoard (rotateMatrix p.shape)
        s.currentPosition = false := by
      simpa using h0
    have h0fe : checkCollision s.gameBoard (rotateMatrix p.shape)
        ⟨s.currentPosition.x, s.currentPosition.y⟩ = false := h0f
    simp [h0f, h0fe]

/-- Witness for C3 at the concrete `kickState`. -/
theorem rotate_tries_kicks_in_code_order_witness :
    rotate kickState = rotateWithOffsets kickState tetroI kickOffsets :=
  rotate_tries_kicks_in_code_order kickState tetroI rfl rfl rfl

/-! ## C5: scoring, lines and level on landing -/

lemma handleGameOver_preserves (s : TetrisState) :
    (handleGameOver s).score = s.score ∧
    (handleGameOver s).lines = s.lines ∧
    (handleGameOver s).level = s.level ∧
    (handleGameOver s).totalLinesCleared = s.totalLinesCleared ∧
    (handleGameOver s).totalPiecesPlaced = s.totalPiecesPlaced := by
  unfold handleGameOver
  rcases h : checkAchievements s with _ | ⟨ach, gp⟩ <;>
    split_ifs <;> simp [h]

lemma handleGameOver_score (s : TetrisState) :
    (handleGameOver s).score = s.score := (handleGameOver_preserves s).1

lemma handleGameOver_lines (s : TetrisState) :
    (handleGameOver s).lines = s.lines := (handleGameOver_preserves s).2.1

lemma handleGameOver_level (s : TetrisState) :
    (handleGameOver s).level = s.level := (handleGameOver_preserves s).2.2.1

lemma handleGameOver_totalLinesCleared (s : TetrisState) :
    (handleGameOver s).totalLinesCleared = s.totalLinesCleared :=
  (handleGameOver_preserves s).2.2.2.1

lemma handleGameOver_totalPiecesPlaced (s : TetrisState) :
    (handleGameOver s).totalPiecesPlaced = s.totalPiecesPlaced :=
  (handleGameOver_preserves s).2.2.2.2

/-- C5: when landing the current piece clears `n` lines (`1 ≤ n ≤ 4`), the
    score grows by exactly `scoreForLines n level` (the `{1:100, 2:300,
    3:500, 4:800} × level` table at the pre-landing level), the session's
    `lines` grows by `n`, the level is recomputed as `lines / 10 + 1`, and
    the cumulative counters advance. -/
theorem handlePieceLanded_scoring (s : TetrisState) (r p : Tetromino) (n : Nat)
    (hp : s.currentPiece = some p)
    (hn : (clearLines (mergeTetrominoWithBoard s.gameBoard p s.currentPosition)).2 = n)
    (h1 : 1 ≤ n) (h4 : n ≤ 4) :
    (handlePieceLanded s r).score = s.score + scoreForLines n s.level ∧
    (handlePieceLanded s r).lines = s.lines + n ∧
    (handlePieceLanded s r).level = (s.lines + n) / 10 + 1 ∧
    (handlePieceLanded s r).totalLinesCleared = s.totalLinesCleared + n ∧
    (handlePieceLanded s r).totalPiecesPlaced = s.totalPiecesPlaced + 1 ∧
    scoreForLines 4 1 = 800 ∧ scoreForLines 4 3 = 2400 := by
  unfold handlePieceLanded
  rw [hp]
  simp only [hn]
  rw [if_pos (by omega : n > 0)]
  rcases hnp : s.nextPiece with _ | np
  · simp [scoreForLines]
  · simp only []
    split_ifs <;>
      simp [scoreForLines, handleGameOver_score, handleGameOver_lines,
        handleGameOver_level, handleGameOver_totalLinesCleared,
        handleGameOver_totalPiecesPlaced]

/-- A game state about to complete the bottom row: eight cells of row 19 are
    filled and the `O` piece at `(8, 18)` fills the last two. -/
def landingState : TetrisState :=
  { baseState with
      gameBoard := List.replicate 19 emptyRow ++
        [[some ⟨"I"⟩, some ⟨"I"⟩, some ⟨"I"⟩, some ⟨"I"⟩,
          some ⟨"I"⟩, some ⟨"I"⟩, some ⟨"I"⟩, some ⟨"I"⟩, none, none]],
      currentPiece := some tetroO,
      currentPosition := ⟨8, 18⟩ }

/-- Witness for C5: landing the `O` piece of `landingState` clears one line. -/
theorem handlePieceLanded_scoring_witness :
    (handlePieceLanded landingState tetroI).score =
      landingState.score + scoreForLines 1 landingState.level ∧
    (handlePieceLanded landingState tetroI).lines = landingState.lines + 1 ∧
    (handlePieceLanded landingState tetroI).level =
      (landingState.lines + 1) / 10 + 1 ∧
    (handlePieceLanded landingState tetroI).totalLinesCleared =
      landingState.totalLinesCleared + 1 ∧
    (handlePieceLanded landingState tetroI).totalPiecesPlaced =
      landingState.totalPiecesPlaced + 1 ∧
    scoreForLines 4 1 = 800 ∧ scoreForLines 4 3 = 2400 :=
  handlePieceLanded_scoring landingState tetroI tetroO 1 rfl (by decide)
    (by decide) (by decide)

/-! ## C2: `hardDrop` -/

lemma findDropY_eq (b : Board) (sh : List (List Bool)) (x : Int) :
    ∀ (m fuel : Nat) (y : Int),
      (∀ k : Nat, k < m → checkCollision b sh ⟨x, y + ↑k + 1⟩ = false) →
      checkCollision b sh ⟨x, y + ↑m + 1⟩ = true →
      m < fuel →
      findDropY fuel b sh x y = y + ↑m := by
  intro m
  induction m with
  | zero =>
    intro fuel y hfree hcol hm
    match fuel, hm with
    | fuel + 1, _ =>
      rw [findDropY]
      have hc : checkCollision b sh ⟨x, y + 1⟩ = true := by
        have hpos : (⟨x, y + 1⟩ : Position) = ⟨x, y + (0 : Nat) + 1⟩ := by
          congr 1
          omega
        rw [hpos]
        exact hcol
      simp [hc]
  | succ m ih =>
    intro fuel y hfree hcol hm
    match fuel, hm with
    | fuel + 1, _ =>
      rw [findDropY]
      have h0 : checkCollision b sh ⟨x, y + 1⟩ = false := by
        have hpos : (⟨x, y + 1⟩ : Position) = ⟨x, y + (0 : Nat) + 1⟩ := by
          congr 1
          omega
        rw [hpos]
        exact hfree 0 (by omega)
      simp only [h0, Bool.not_false, if_true]
      have hrec := ih fuel (y + 1)
        (fun k hk => by
          have hpos : (⟨x, y + 1 + ↑k + 1⟩ : Position) =
              ⟨x, y + ↑(k + 1) + 1⟩ := by
            congr 1
            push_cast
            ring
          rw [hpos]
          exact hfree (k + 1) (by omega))
        (by
          have hpos : (⟨x, y + 1 + ↑m + 1⟩ : Position) =
              ⟨x, y + ↑(m + 1) + 1⟩ := by
            congr 1
            push_cast
            ring
          rw [hpos]
          exact hcol)
        (by omega)
      rw [hrec]
      push_cast
      ring

/-- A shape with at least one occupied cell always collides 20 rows below a
    non-negative position (its occupied cell passes `BOARD_HEIGHT`). -/
lemma collision_below_board (b : Board) (sh : List (List Bool)) (x y : Int)
    (hy : 0 ≤ y)
    (hocc : ∃ i, i < sh.length ∧ ∃ j, j < (sh.getD i []).length ∧
      (sh.getD i []).getD j false = true) :
    checkCollision b sh ⟨x, y + 20⟩ = true := by
  rcases hocc with ⟨i, hi, j, hj, hcell⟩
  rw [checkCollision_iff_collides]
  refine ⟨i, hi, j, hj, hcell, Or.inl ?_⟩
  have hbh : (BOARD_HEIGHT : Int) = 20 := rfl
  right; right; right
  rw [hbh]
  dsimp only
  omega

/-- C2 (amended): when active with a current piece, `hardDrop` finds the
    largest fall distance `d` with every intermediate step collision-free and
    the next step colliding; with `d > 0` it moves the piece down by `d`,
    awards `2 × d` points, increments `totalHardDrops` by one and lands the
    piece via `handlePieceLanded` once; with `d = 0` the landing still happens
    exactly once but the score and the hard-drop counter stay untouched. -/
theorem hardDrop_spec (s : TetrisState) (r p : Tetromino)
    (hact : s.isGameActive = true) (hpause : s.isPaused = false)
    (hp : s.currentPiece = some p)
    (hy : 0 ≤ s.currentPosition.y)
    (hocc : ∃ i, i < p.shape.length ∧ ∃ j, j < (p.shape.getD i []).length ∧
      (p.shape.getD i []).getD j false = true) :
    ∃ d : Nat,
      findDropY (BOARD_HEIGHT + 1) s.gameBoard p.shape s.currentPosition.x
          s.currentPosition.y = s.currentPosition.y + ↑d ∧
      (∀ k : Nat, 1 ≤ k → k ≤ d →
        checkCollision s.gameBoard p.shape
          ⟨s.currentPosition.x, s.currentPosition.y + ↑k⟩ = false) ∧
      checkCollision s.gameBoard p.shape
        ⟨s.currentPosition.x, s.currentPosition.y + ↑d + 1⟩ = true ∧
      (d = 0 → hardDrop s r = handlePieceLanded s r) ∧
      (0 < d → ∃ s', hardDrop s r = handlePieceLanded s' r ∧
        s'.score = s.score + 2 * d ∧
        s'.totalHardDrops = s.totalHardDrops + 1 ∧
        s'.currentPosition = ⟨s.currentPosition.x, s.currentPosition.y + ↑d⟩ ∧
        s'.gameBoard = s.gameBoard ∧ s'.currentPiece = s.currentPiece ∧
        s'.nextPiece = s.nextPiece ∧ s'.lines = s.lines ∧
        s'.level = s.level ∧ s'.isGameActive = s.isGameActive ∧
        s'.isPaused = s.isPaused) := by
  have hblocked : inputBlocked s = false := by
    simp [inputBlocked, hact, hpause, hp]
  have hP19 : checkCollision s.gameBoard p.shape
      ⟨s.currentPosition.x, s.currentPosition.y + (19 : Nat) + 1⟩ = true := by
    have hpos : (⟨s.currentPosition.x, s.currentPosition.y + (19 : Nat) + 1⟩ : Position) =
        ⟨s.currentPosition.x, s.currentPosition.y + 20⟩ := by
      congr 1
      push_cast
      ring
    rw [hpos]
    exact collision_below_board s.gameBoard p.shape _ _ hy hocc
  have hex : ∃ k : Nat, checkCollision s.gameBoard p.shape
      ⟨s.currentPosition.x, s.currentPosition.y + ↑k + 1⟩ = true := ⟨19, hP19⟩
  classical
  set m := Nat.find hex with hmdef
  have hcol : checkCollision s.gameBoard p.shape
      ⟨s.currentPosition.x, s.currentPosition.y + ↑m + 1⟩ = true :=
    Nat.find_spec hex
  have hfree : ∀ k : Nat, k < m → checkCollision s.gameBoard p.shape
      ⟨s.currentPosition.x, s.currentPosition.y + ↑k + 1⟩ = false := by
    intro k hk
    have := Nat.find_min hex hk
    simpa using this
  have hm19 : m ≤ 19 := Nat.find_min' hex hP19
  have hfind : findDropY (BOARD_HEIGHT + 1) s.gameBoard p.shape
      s.currentPosition.x s.currentPosition.y = s.currentPosition.y + ↑m :=
    findDropY_eq s.gameBoard p.shape s.currentPosition.x m (BOARD_HEIGHT + 1)
      s.currentPosition.y hfree hcol (by
        have hbh : BOARD_HEIGHT = 20 := rfl
        omega)
  refine ⟨m, hfind, ?_, hcol, ?_, ?_⟩
  · intro k hk1 hkm
    have hpos : (⟨s.currentPosition.x, s.currentPosition.y + ↑k⟩ : Position) =
        ⟨s.currentPosition.x, s.currentPosition.y + ↑(k - 1) + 1⟩ := by
      congr 1
      omega
    rw [hpos]
    exact hfree (k - 1) (by omega)
  · intro hm0
    unfold hardDrop
    rw [hblocked]
    simp only [Bool.false_eq_true, if_false]
    rw [hp]
    simp only [hfind]
    rw [if_pos (by omega : (s.currentPosition.y + ↑m - s.currentPosition.y).toNat = 0)]
  · intro hm0
    unfold hardDrop
    rw [hblocked]
    simp only [Bool.false_eq_true, if_false]
    rw [hp]
    simp only [hfind]
    have hd : (s.currentPosition.y + ↑m - s.currentPosition.y).toNat = m := by
      omega
    rw [if_neg (by omega : ¬ (s.currentPosition.y + ↑m - s.currentPosition.y).toNat = 0)]
    rw [hd]
    refine ⟨_, rfl, ?_, ?_, ?_, ?_, ?_, ?_, ?_, ?_, ?_, ?_⟩ <;> simp [hp] <;> ring

/-- C2 counterexample: hard-dropping the already-resting `O` piece of
    `baseState` (zero fall distance) still lands it — `totalPiecesPlaced`
    advances — but `totalHardDrops` stays at 0 instead of the increment to 1
    the claim demands. -/
theorem hardDrop_resting_counter_counterexample :
    baseState.isGameActive = true ∧ baseState.isPaused = false ∧
    baseState.currentPiece = some tetroO ∧
    baseState.totalHardDrops = 0 ∧
    (hardDrop baseState tetroI).totalHardDrops = 0 ∧
    (hardDrop baseState tetroI).totalHardDrops ≠ baseState.totalHardDrops + 1 ∧
    (hardDrop baseState tetroI).totalPiecesPlaced =
      baseState.totalPiecesPlaced + 1 := by
  decide

/-- A running game with the `O` piece at the top of an empty board. -/
def droppingState : TetrisState := { baseState with currentPosition := ⟨4, 0⟩ }

/-- Witness for C2 at `droppingState` (fall distance 18). -/
theorem hardDrop_spec_witness :
    ∃ d : Nat,
      findDropY (BOARD_HEIGHT + 1) droppingState.gameBoard tetroO.shape
          droppingState.currentPosition.x droppingState.currentPosition.y =
        droppingState.currentPosition.y + ↑d ∧
      (∀ k : Nat, 1 ≤ k → k ≤ d →
        checkCollision droppingState.gameBoard tetroO.shape
          ⟨droppingState.currentPosition.x,
           droppingState.currentPosition.y + ↑k⟩ = false) ∧
      checkCollision droppingState.gameBoard tetroO.shape
        ⟨droppingState.currentPosition.x,
         droppingState.currentPosition.y + ↑d + 1⟩ = true ∧
      (d = 0 → hardDrop droppingState tetroI =
        handlePieceLanded droppingState tetroI) ∧
      (0 < d → ∃ s', hardDrop droppingState tetroI =
          handlePieceLanded s' tetroI ∧
        s'.score = droppingState.score + 2 * d ∧
        s'.totalHardDrops = droppingState.totalHardDrops + 1 ∧
        s'.currentPosition = ⟨droppingState.currentPosition.x,
          droppingState.currentPosition.y + ↑d⟩ ∧
        s'.gameBoard = droppingState.gameBoard ∧
        s'.currentPiece = droppingState.currentPiece ∧
        s'.nextPiece = droppingState.nextPiece ∧
        s'.lines = droppingState.lines ∧
        s'.level = droppingState.level ∧
        s'.isGameActive = droppingState.isGameActive ∧
        s'.isPaused = droppingState.isPaused) :=
  hardDrop_spec droppingState tetroI tetroO rfl rfl rfl (by decide) (by decide)

end Tetris
